import Mathlib

/-!
Verification of the Session Fixer (`fix_session.py`).

The program reads a line-delimited JSON session file, parses each non-blank
line, synthesizes a leading `file-history-snapshot` record when none is
present, normalizes a handful of metadata fields, renames the original file
to a backup path and writes the fixed record list back.

We embed the record-level transformation shallowly: JSON values are an
inductive type, a record is the field list of a JSON object, and the
fallible parts of the Python code (attribute access on a non-object value
raises an exception) are modelled with `Option` / `Except`.  Identifier
generation (`uuid.uuid4()`) is nondeterministic in the source, so the
embedding takes the generated strings as parameters: `gs` stands for the
`str(uuid.uuid4())` fallback used for the snapshot `messageId`, and
`gen : Nat → String` supplies the `uuid.uuid4().hex` values used for
generated `requestId` fields, one per processed record.
-/

set_option autoImplicit false

/-- A JSON value.  Numeric payloads are kept as their literal text, because
the fixer never inspects numbers. -/
inductive JVal where
  | null : JVal
  | bool (b : Bool) : JVal
  | num (lit : String) : JVal
  | str (s : String) : JVal
  | arr (xs : List JVal) : JVal
  | obj (fields : List (String × JVal)) : JVal

/-- First value bound to key `k`, mirroring Python `dict` lookup
(keys of a parsed JSON object are unique, so first = only). -/
def lookupField : List (String × JVal) → String → Option JVal
  | [], _ => none
  | (k1, v) :: rest, k => if k1 == k then some v else lookupField rest k

/-- Python `d[k] = v`: overwrite an existing key in place, otherwise append
the new key at the end (insertion order is preserved). -/
def setField : List (String × JVal) → String → JVal → List (String × JVal)
  | [], k, v => [(k, v)]
  | (k1, v1) :: rest, k, v =>
      if k1 == k then (k, v) :: rest else (k1, v1) :: setField rest k v

/-- Python `k in d`. -/
def hasField (fs : List (String × JVal)) (k : String) : Bool :=
  (lookupField fs k).isSome

/-- Python `v == s` for a string literal `s`: true only when `v` is the
equal JSON string. -/
def jstrEq (v : JVal) (s : String) : Bool :=
  match v with
  | .str t => t == s
  | _ => false

/-- `msg.get('type', '')` from line 63 of `fix_session.py`. -/
def typeD (fs : List (String × JVal)) : JVal :=
  (lookupField fs "type").getD (.str "")

/-- `msg.get('type') == 'file-history-snapshot'` from line 41:
the `.get` default is `None` there, not `''`. -/
def snapGet (fs : List (String × JVal)) : Bool :=
  match lookupField fs "type" with
  | some (.str s) => s == "file-history-snapshot"
  | _ => false

/-- Line 41, `any(msg.get('type') == 'file-history-snapshot' for msg in lines)`.
`any` short-circuits, and `.get` on a non-object raises — modelled as `none`. -/
def has_snapshot : List JVal → Option Bool
  | [] => some false
  | .obj fs :: rest => if snapGet fs then some true else has_snapshot rest
  | _ :: _ => none

/-- The synthesized snapshot record, lines 48-57. -/
def mkSnapshot (mid ts : JVal) : JVal :=
  .obj [("type", .str "file-history-snapshot"),
        ("messageId", mid),
        ("snapshot", .obj [("messageId", mid),
                           ("trackedFileBackups", .obj []),
                           ("timestamp", ts)]),
        ("isSnapshotUpdate", .bool false)]

/-- The default `thinkingMetadata` object, lines 84-88. -/
def thinkingDefault : JVal :=
  .obj [("level", .str "high"), ("disabled", .bool false), ("triggers", .arr [])]

/-- Lines 71-72: `if 'version' in msg: msg['version'] = '2.0.28'`. -/
def stepVersion (fs : List (String × JVal)) : List (String × JVal) :=
  if hasField fs "version" then setField fs "version" (.str "2.0.28") else fs

/-- Lines 75-76: add `gitBranch` when missing on `user`/`assistant` records. -/
def stepGit (t : JVal) (fs : List (String × JVal)) : List (String × JVal) :=
  if !hasField fs "gitBranch" && (jstrEq t "user" || jstrEq t "assistant")
  then setField fs "gitBranch" (.str "main") else fs

/-- Lines 79-80: add a generated `requestId` when missing on `assistant`
records; `g` is the `uuid.uuid4().hex` token. -/
def stepReq (g : String) (t : JVal) (fs : List (String × JVal)) :
    List (String × JVal) :=
  if jstrEq t "assistant" && !hasField fs "requestId"
  then setField fs "requestId" (.str ("req_" ++ g)) else fs

/-- Lines 83-88: add the default `thinkingMetadata` when missing on `user`
records. -/
def stepThink (t : JVal) (fs : List (String × JVal)) : List (String × JVal) :=
  if jstrEq t "user" && !hasField fs "thinkingMetadata"
  then setField fs "thinkingMetadata" thinkingDefault else fs

/-- Lines 70-88: the field normalization applied to one non-snapshot record,
the four mutations of `msg` in their source order.  `t` is the
already-computed `msg.get('type', '')` and `g` the hex token a generated
`requestId` would use. -/
def fixMsg (g : String) (t : JVal) (fs : List (String × JVal)) :
    List (String × JVal) :=
  stepThink t (stepReq g t (stepGit t (stepVersion fs)))

/-- Lines 62-90: the `for msg in lines` loop.  Snapshot records pass through
unchanged; every other record is normalized.  `msg.get` on a non-object
raises, modelled as `none`.  The counter feeding `gen` advances once per
normalized record, so distinct records receive distinct tokens whenever
`gen` is injective, matching fresh `uuid.uuid4()` calls. -/
def fixLoop (gen : Nat → String) : Nat → List JVal → Option (List JVal)
  | _, [] => some []
  | i, .obj fs :: rest =>
      if jstrEq (typeD fs) "file-history-snapshot" then
        (fixLoop gen i rest).map (fun body => .obj fs :: body)
      else
        (fixLoop gen (i + 1) rest).map
          (fun body => .obj (fixMsg (gen i) (typeD fs) fs) :: body)
  | _, _ :: _ => none

/-- Lines 41-90: the whole in-memory record-list transformation.  When no
snapshot is present, the synthesized record is built from
`lines[0].get('uuid', str(uuid.uuid4()))` and
`lines[0].get('timestamp', '2025-10-29T10:00:00.000Z')` and placed first. -/
def fixRecords (gs : String) (gen : Nat → String) (lines : List JVal) :
    Option (List JVal) :=
  match has_snapshot lines with
  | none => none
  | some true => fixLoop gen 0 lines
  | some false =>
    match lines with
    | .obj fs :: _ =>
        (fixLoop gen 0 lines).map
          (fun body =>
            mkSnapshot ((lookupField fs "uuid").getD (.str gs))
              ((lookupField fs "timestamp").getD (.str "2025-10-29T10:00:00.000Z"))
              :: body)
    | _ => none

/-- One physical line of the input file, abstracted at the parse level:
blank after stripping, a JSON parse failure, or a successful parse. -/
inductive Line where
  | blank : Line
  | bad : Line
  | ok (v : JVal) : Line

/-- Lines 21-32: collect the values of the lines that parse, in order.
Blank lines are skipped silently, unparsable lines are skipped with a
warning; any parsed value — object or not — is collected. -/
def parseLines (content : List Line) : List JVal :=
  content.filterMap (fun l => match l with | .ok v => some v | _ => none)

/-- The filesystem visible to the fixer: paths bound to file contents. -/
def FS : Type := List (String × List Line)

def FS.lookup : FS → String → Option (List Line)
  | [], _ => none
  | (p, c) :: rest, q => if p == q then some c else FS.lookup rest q

def FS.erase : FS → String → FS
  | [], _ => []
  | (p, c) :: rest, q => if p == q then rest else (p, c) :: FS.erase rest q

def FS.set : FS → String → List Line → FS
  | [], q, d => [(q, d)]
  | (p, c) :: rest, q, d =>
      if p == q then (q, d) :: rest else (p, c) :: FS.set rest q d

/-- Drop the final extension of a file name, as `Path.with_suffix` does
before attaching the new suffix: text from the last dot, except that a
leading dot with no other dot marks a hidden file without extension. -/
def dropLastExt (name : String) : String :=
  match name.splitOn "." with
  | [] => name
  | [_] => name
  | p :: ps =>
      if p == "" && ps.length == 1 then name
      else String.intercalate "." ((p :: ps).dropLast)

/-- Line 93: `session_file.with_suffix('.jsonl.backup')`, modelled for the
final path component. -/
def backupName (p : String) : String :=
  let parts := p.splitOn "/"
  match parts.getLast? with
  | none => p ++ ".jsonl.backup"
  | some name =>
      String.intercalate "/" (parts.dropLast ++ [dropLastExt name ++ ".jsonl.backup"])

/-- The whole of `fix_session`: missing file and empty parse return
`False` with the filesystem untouched; a raised exception (field access on
a non-object record) is `.error fs`, reached before any mutation; on
success the original is renamed to the backup path and the fixed records
are written to the original path. -/
def fix_session (gs : String) (gen : Nat → String) (fs : FS) (path : String) :
    Except FS (Bool × FS) :=
  match FS.lookup fs path with
  | none => .ok (false, fs)
  | some content =>
    match parseLines content with
    | [] => .ok (false, fs)
    | first :: rest =>
      match fixRecords gs gen (first :: rest) with
      | none => .error fs
      | some fixed =>
        let fs1 := FS.set (FS.erase fs path) (backupName path) content
        .ok (true, FS.set fs1 path (fixed.map Line.ok))

/-! ### Spec-side observation helpers -/

/-- Value of field `k` of a record, `none` when absent or when the record is
not an object. -/
def getF (m : JVal) (k : String) : Option JVal :=
  match m with
  | .obj fs => lookupField fs k
  | _ => none

/-- Whether a record is an object whose `type` field compares equal to the
string `s` (Python `==` against a string literal). -/
def isType (m : JVal) (s : String) : Bool :=
  match m with
  | .obj fs => jstrEq (typeD fs) s
  | _ => false

/-- A record of type `file-history-snapshot`. -/
def isSnapB (m : JVal) : Bool :=
  isType m "file-history-snapshot"

def nonSnapB (m : JVal) : Bool :=
  !isSnapB m

/-- Number of snapshot records in a list. -/
def countSnap (l : List JVal) : Nat :=
  l.countP (fun m => isSnapB m)

/-- The pointwise image of the loop body on a list of non-snapshot object
records, used to state order preservation: element `i` of the output is the
normalization of element `i` of the input. -/
def normalizeAll (gen : Nat → String) : Nat → List JVal → List JVal
  | _, [] => []
  | i, .obj fs :: rest =>
      .obj (fixMsg (gen i) (typeD fs) fs) :: normalizeAll gen (i + 1) rest
  | i, m :: rest => m :: normalizeAll gen i rest

/-! ### Sample records used by concrete counterexamples and witnesses -/

/-- A minimal snapshot-typed record, as it could appear in an input file. -/
def snapRec : JVal :=
  .obj [("type", .str "file-history-snapshot")]

/-- A snapshot-typed record carrying a stale `version` field. -/
def snapVerRec : JVal :=
  .obj [("type", .str "file-history-snapshot"), ("version", .str "1.0.0")]

/-- The user record of the worked scenario in the spec. -/
def userRec : JVal :=
  .obj [("type", .str "user"), ("uuid", .str "abc"),
        ("timestamp", .str "2025-01-01T00:00:00.000Z")]

/-- The assistant record of the worked scenario in the spec. -/
def assistantRec : JVal :=
  .obj [("type", .str "assistant"), ("version", .str "1.0.0")]

/-- A fixed identifier supply for concrete evaluations. -/
def gen0 : Nat → String := fun n => "cafe" ++ toString n

/-- The assistant record of the worked scenario after normalization. -/
def assistantOutRec : JVal :=
  .obj [("type", .str "assistant"), ("version", .str "2.0.28"),
        ("gitBranch", .str "main"), ("requestId", .str "req_cafe1")]

/-- The full fixed output of the worked scenario `[userRec, assistantRec]`
under the supplies `"u0"` and `gen0`. -/
def fixedScenario : List JVal :=
  [mkSnapshot (.str "abc") (.str "2025-01-01T00:00:00.000Z"),
   .obj [("type", .str "user"), ("uuid", .str "abc"),
         ("timestamp", .str "2025-01-01T00:00:00.000Z"),
         ("gitBranch", .str "main"), ("thinkingMetadata", thinkingDefault)],
   assistantOutRec]

/-! ### Association-list lemmas -/

theorem lookupField_setField_self (fs : List (String × JVal)) (k : String) (v : JVal) :
    lookupField (setField fs k v) k = some v := by
  induction fs with
  | nil => simp [setField, lookupField]
  | cons hd tl ih =>
      obtain ⟨k1, v1⟩ := hd
      by_cases h : (k1 == k) = true
      · simp [setField, h, lookupField]
      · simp [setField, h, lookupField, ih]

theorem lookupField_setField_ne (fs : List (String × JVal)) (k k2 : String)
    (v : JVal) (h : (k == k2) = false) :
    lookupField (setField fs k v) k2 = lookupField fs k2 := by
  induction fs with
  | nil => simp [setField, lookupField, h]
  | cons hd tl ih =>
      obtain ⟨k1, v1⟩ := hd
      by_cases h1 : (k1 == k) = true
      · have hk : k1 = k := eq_of_beq h1
        subst hk
        simp [setField, lookupField, h]
      · by_cases h2 : (k1 == k2) = true
        · simp [setField, h1, lookupField, h2]
        · simp [setField, h1, lookupField, h2, ih]

theorem setField_self_eq (fs : List (String × JVal)) (k : String) (v : JVal)
    (h : lookupField fs k = some v) : setField fs k v = fs := by
  induction fs with
  | nil => simp [lookupField] at h
  | cons hd tl ih =>
      obtain ⟨k1, v1⟩ := hd
      by_cases h1 : (k1 == k) = true
      · have hk : k1 = k := eq_of_beq h1
        subst hk
        simp [lookupField] at h
        simp [setField, h]
      · simp [lookupField, h1] at h
        simp [setField, h1, ih h]

/-! ### Per-step lookup lemmas -/

theorem stepVersion_version (fs : List (String × JVal)) :
    lookupField (stepVersion fs) "version" =
      (lookupField fs "version").map (fun _ => .str "2.0.28") := by
  unfold stepVersion hasField
  cases h : lookupField fs "version" with
  | none => simp [h]
  | some w => simp [h, lookupField_setField_self]

theorem stepVersion_ne (fs : List (String × JVal)) (k : String)
    (h : ("version" == k) = false) :
    lookupField (stepVersion fs) k = lookupField fs k := by
  unfold stepVersion
  by_cases h1 : hasField fs "version" = true
  · simp [h1, lookupField_setField_ne _ _ _ _ h]
  · simp [h1]

theorem stepGit_gitBranch (t : JVal) (fs : List (String × JVal)) :
    lookupField (stepGit t fs) "gitBranch" =
      if (jstrEq t "user" || jstrEq t "assistant") = true
      then some ((lookupField fs "gitBranch").getD (.str "main"))
      else lookupField fs "gitBranch" := by
  unfold stepGit hasField
  cases h : lookupField fs "gitBranch" with
  | none =>
      by_cases h2 : (jstrEq t "user" || jstrEq t "assistant") = true
      · simp [h, h2, lookupField_setField_self]
      · simp [h, h2]
  | some w =>
      by_cases h2 : (jstrEq t "user" || jstrEq t "assistant") = true
      · simp [h, h2]
      · simp [h, h2]

theorem stepGit_ne (t : JVal) (fs : List (String × JVal)) (k : String)
    (h : ("gitBranch" == k) = false) :
    lookupField (stepGit t fs) k = lookupField fs k := by
  unfold stepGit
  by_cases h1 : (!hasField fs "gitBranch" && (jstrEq t "user" || jstrEq t "assistant")) = true
  · simp [h1, lookupField_setField_ne _ _ _ _ h]
  · simp [h1]

theorem stepReq_requestId (g : String) (t : JVal) (fs : List (String × JVal)) :
    lookupField (stepReq g t fs) "requestId" =
      if jstrEq t "assistant" = true
      then some ((lookupField fs "requestId").getD (.str ("req_" ++ g)))
      else lookupField fs "requestId" := by
  unfold stepReq hasField
  cases h : lookupField fs "requestId" with
  | none =>
      by_cases h2 : jstrEq t "assistant" = true
      · simp [h, h2, lookupField_setField_self]
      · simp [h, h2]
  | some w =>
      by_cases h2 : jstrEq t "assistant" = true
      · simp [h, h2]
      · simp [h, h2]

theorem stepReq_ne (g : String) (t : JVal) (fs : List (String × JVal)) (k : String)
    (h : ("requestId" == k) = false) :
    lookupField (stepReq g t fs) k = lookupField fs k := by
  unfold stepReq
  by_cases h1 : (jstrEq t "assistant" && !hasField fs "requestId") = true
  · simp [h1, lookupField_setField_ne _ _ _ _ h]
  · simp [h1]

theorem stepThink_thinking (t : JVal) (fs : List (String × JVal)) :
    lookupField (stepThink t fs) "thinkingMetadata" =
      if jstrEq t "user" = true
      then some ((lookupField fs "thinkingMetadata").getD thinkingDefault)
      else lookupField fs "thinkingMetadata" := by
  unfold stepThink hasField
  cases h : lookupField fs "thinkingMetadata" with
  | none =>
      by_cases h2 : jstrEq t "user" = true
      · simp [h, h2, lookupField_setField_self]
      · simp [h, h2]
  | some w =>
      by_cases h2 : jstrEq t "user" = true
      · simp [h, h2]
      · simp [h, h2]

theorem stepThink_ne (t : JVal) (fs : List (String × JVal)) (k : String)
    (h : ("thinkingMetadata" == k) = false) :
    lookupField (stepThink t fs) k = lookupField fs k := by
  unfold stepThink
  by_cases h1 : (jstrEq t "user" && !hasField fs "thinkingMetadata") = true
  · simp [h1, lookupField_setField_ne _ _ _ _ h]
  · simp [h1]

/-! ### Field lemmas for the whole per-record normalization -/

theorem fixMsg_lookup_ne (g : String) (t : JVal) (fs : List (String × JVal))
    (k : String) (h1 : ("version" == k) = false) (h2 : ("gitBranch" == k) = false)
    (h3 : ("requestId" == k) = false) (h4 : ("thinkingMetadata" == k) = false) :
    lookupField (fixMsg g t fs) k = lookupField fs k := by
  unfold fixMsg
  rw [stepThink_ne _ _ _ h4, stepReq_ne _ _ _ _ h3, stepGit_ne _ _ _ h2,
    stepVersion_ne _ _ h1]

theorem fixMsg_type (g : String) (t : JVal) (fs : List (String × JVal)) :
    lookupField (fixMsg g t fs) "type" = lookupField fs "type" := by
  exact fixMsg_lookup_ne g t fs "type" (by decide) (by decide) (by decide) (by decide)

theorem typeD_fixMsg (g : String) (t : JVal) (fs : List (String × JVal)) :
    typeD (fixMsg g t fs) = typeD fs := by
  unfold typeD
  rw [fixMsg_type]

theorem fixMsg_version (g : String) (t : JVal) (fs : List (String × JVal)) :
    lookupField (fixMsg g t fs) "version" =
      (lookupField fs "version").map (fun _ => .str "2.0.28") := by
  unfold fixMsg
  rw [stepThink_ne _ _ _ (by decide), stepReq_ne _ _ _ _ (by decide),
    stepGit_ne _ _ _ (by decide), stepVersion_version]

theorem fixMsg_gitBranch (g : String) (t : JVal) (fs : List (String × JVal)) :
    lookupField (fixMsg g t fs) "gitBranch" =
      if (jstrEq t "user" || jstrEq t "assistant") = true
      then some ((lookupField fs "gitBranch").getD (.str "main"))
      else lookupField fs "gitBranch" := by
  unfold fixMsg
  rw [stepThink_ne _ _ _ (by decide), stepReq_ne _ _ _ _ (by decide),
    stepGit_gitBranch, stepVersion_ne _ _ (by decide)]

theorem fixMsg_requestId (g : String) (t : JVal) (fs : List (String × JVal)) :
    lookupField (fixMsg g t fs) "requestId" =
      if jstrEq t "assistant" = true
      then some ((lookupField fs "requestId").getD (.str ("req_" ++ g)))
      else lookupField fs "requestId" := by
  unfold fixMsg
  rw [stepThink_ne _ _ _ (by decide), stepReq_requestId,
    stepGit_ne _ _ _ (by decide), stepVersion_ne _ _ (by decide)]

theorem fixMsg_thinking (g : String) (t : JVal) (fs : List (String × JVal)) :
    lookupField (fixMsg g t fs) "thinkingMetadata" =
      if jstrEq t "user" = true
      then some ((lookupField fs "thinkingMetadata").getD thinkingDefault)
      else lookupField fs "thinkingMetadata" := by
  unfold fixMsg
  rw [stepThink_thinking, stepReq_ne _ _ _ _ (by decide),
    stepGit_ne _ _ _ (by decide), stepVersion_ne _ _ (by decide)]

/-- A second pass leaves an already-normalized record unchanged. -/
theorem fixMsg_idem (g g2 : String) (t : JVal) (fs : List (String × JVal)) :
    fixMsg g2 t (fixMsg g t fs) = fixMsg g t fs := by
  have hv : stepVersion (fixMsg g t fs) = fixMsg g t fs := by
    unfold stepVersion hasField
    cases h : lookupField fs "version" with
    | none => rw [fixMsg_version, h]; rfl
    | some w =>
        rw [fixMsg_version, h]
        simp only [Option.map_some', Option.isSome_some, if_true]
        apply setField_self_eq
        rw [fixMsg_version, h]
        rfl
  have hg : stepGit t (fixMsg g t fs) = fixMsg g t fs := by
    unfold stepGit
    by_cases hc : (jstrEq t "user" || jstrEq t "assistant") = true
    · have hh : hasField (fixMsg g t fs) "gitBranch" = true := by
        unfold hasField; rw [fixMsg_gitBranch, if_pos hc]; rfl
      simp [hh]
    · simp only [Bool.not_eq_true] at hc
      simp [hc]
  have hr : stepReq g2 t (fixMsg g t fs) = fixMsg g t fs := by
    unfold stepReq
    by_cases hc : jstrEq t "assistant" = true
    · have hh : hasField (fixMsg g t fs) "requestId" = true := by
        unfold hasField; rw [fixMsg_requestId, if_pos hc]; rfl
      simp [hh]
    · simp only [Bool.not_eq_true] at hc
      simp [hc]
  have ht : stepThink t (fixMsg g t fs) = fixMsg g t fs := by
    unfold stepThink
    by_cases hc : jstrEq t "user" = true
    · have hh : hasField (fixMsg g t fs) "thinkingMetadata" = true := by
        unfold hasField; rw [fixMsg_thinking, if_pos hc]; rfl
      simp [hh]
    · simp only [Bool.not_eq_true] at hc
      simp [hc]
  calc fixMsg g2 t (fixMsg g t fs)
      = stepThink t (stepReq g2 t (stepGit t (stepVersion (fixMsg g t fs)))) := rfl
    _ = fixMsg g t fs := by rw [hv, hg, hr, ht]

/-! ### Equation lemmas -/

theorem fixLoop_nil (gen : Nat → String) (i : Nat) : fixLoop gen i [] = some [] := rfl

theorem fixLoop_obj (gen : Nat → String) (i : Nat) (fs : List (String × JVal))
    (rest : List JVal) :
    fixLoop gen i (.obj fs :: rest) =
      if jstrEq (typeD fs) "file-history-snapshot" then
        (fixLoop gen i rest).map (fun body => .obj fs :: body)
      else
        (fixLoop gen (i + 1) rest).map
          (fun body => .obj (fixMsg (gen i) (typeD fs) fs) :: body) := rfl

theorem fixLoop_null (gen : Nat → String) (i : Nat) (rest : List JVal) :
    fixLoop gen i (.null :: rest) = none := rfl

theorem fixLoop_bool (gen : Nat → String) (i : Nat) (b : Bool) (rest : List JVal) :
    fixLoop gen i (.bool b :: rest) = none := rfl

theorem fixLoop_num (gen : Nat → String) (i : Nat) (l : String) (rest : List JVal) :
    fixLoop gen i (.num l :: rest) = none := rfl

theorem fixLoop_str (gen : Nat → String) (i : Nat) (s : String) (rest : List JVal) :
    fixLoop gen i (.str s :: rest) = none := rfl

theorem fixLoop_arr (gen : Nat → String) (i : Nat) (xs : List JVal) (rest : List JVal) :
    fixLoop gen i (.arr xs :: rest) = none := rfl

theorem has_snapshot_nil : has_snapshot [] = some false := rfl

theorem has_snapshot_obj (fs : List (String × JVal)) (rest : List JVal) :
    has_snapshot (.obj fs :: rest) =
      if snapGet fs then some true else has_snapshot rest := rfl

theorem normalizeAll_nil (gen : Nat → String) (i : Nat) : normalizeAll gen i [] = [] := rfl

theorem normalizeAll_obj (gen : Nat → String) (i : Nat) (fs : List (String × JVal))
    (rest : List JVal) :
    normalizeAll gen i (.obj fs :: rest) =
      .obj (fixMsg (gen i) (typeD fs) fs) :: normalizeAll gen (i + 1) rest := rfl

/-! ### Type-classification lemmas -/

theorem snapGet_eq (fs : List (String × JVal)) :
    snapGet fs = jstrEq (typeD fs) "file-history-snapshot" := by
  unfold snapGet typeD
  cases h : lookupField fs "type" with
  | none => rfl
  | some v => cases v <;> rfl

theorem isSnapB_obj (fs : List (String × JVal)) :
    isSnapB (.obj fs) = jstrEq (typeD fs) "file-history-snapshot" := rfl

theorem snapGet_fixMsg (g : String) (t : JVal) (fs : List (String × JVal)) :
    snapGet (fixMsg g t fs) = snapGet fs := by
  unfold snapGet
  rw [fixMsg_type]

theorem isType_fixMsg (g : String) (t : JVal) (fs : List (String × JVal)) (s : String) :
    isType (.obj (fixMsg g t fs)) s = isType (.obj fs) s := by
  show jstrEq (typeD (fixMsg g t fs)) s = jstrEq (typeD fs) s
  rw [typeD_fixMsg]

theorem isSnapB_mkSnapshot (mid ts : JVal) : isSnapB (mkSnapshot mid ts) = true := rfl

theorem countSnap_nil : countSnap [] = 0 := rfl

theorem countSnap_cons (m : JVal) (l : List JVal) :
    countSnap (m :: l) = countSnap l + (if isSnapB m then 1 else 0) := by
  simp [countSnap, List.countP_cons]

/-! ### `has_snapshot` characterizations -/

theorem has_snapshot_false (lines : List JVal) (h : has_snapshot lines = some false) :
    ∀ m ∈ lines, isSnapB m = false ∧ ∃ fs, m = .obj fs := by
  induction lines with
  | nil => intro m hm; cases hm
  | cons m rest ih =>
      intro m2 hm2
      cases m with
      | obj fs =>
          rw [has_snapshot_obj] at h
          by_cases hc : snapGet fs = true
          · rw [if_pos hc] at h; simp at h
          · simp only [Bool.not_eq_true] at hc
            rw [if_neg (by simp [hc])] at h
            rcases List.mem_cons.mp hm2 with h2 | h2
            · subst h2
              refine ⟨?_, fs, rfl⟩
              rw [isSnapB_obj, ← snapGet_eq]
              exact hc
            · exact ih h m2 h2
      | null => simp [has_snapshot] at h
      | bool b => simp [has_snapshot] at h
      | num l => simp [has_snapshot] at h
      | str s => simp [has_snapshot] at h
      | arr xs => simp [has_snapshot] at h

theorem has_snapshot_true_mem (lines : List JVal) (h : has_snapshot lines = some true) :
    ∃ m ∈ lines, isSnapB m = true := by
  induction lines with
  | nil => rw [has_snapshot_nil] at h; simp at h
  | cons m rest ih =>
      cases m with
      | obj fs =>
          rw [has_snapshot_obj] at h
          by_cases hc : snapGet fs = true
          · refine ⟨.obj fs, List.mem_cons_self _ _, ?_⟩
            rw [isSnapB_obj, ← snapGet_eq]
            exact hc
          · rw [if_neg hc] at h
            obtain ⟨m2, hm2, hs2⟩ := ih h
            exact ⟨m2, List.mem_cons_of_mem _ hm2, hs2⟩
      | null => simp [has_snapshot] at h
      | bool b => simp [has_snapshot] at h
      | num l => simp [has_snapshot] at h
      | str s => simp [has_snapshot] at h
      | arr xs => simp [has_snapshot] at h

theorem countSnap_zero_of_false (lines : List JVal)
    (h : has_snapshot lines = some false) : countSnap lines = 0 := by
  unfold countSnap
  rw [List.countP_eq_zero]
  intro m hm
  simp [(has_snapshot_false lines h m hm).1]

theorem countSnap_pos_of_true (lines : List JVal)
    (h : has_snapshot lines = some true) : 1 ≤ countSnap lines := by
  unfold countSnap
  obtain ⟨m, hm, hs⟩ := has_snapshot_true_mem lines h
  exact Nat.succ_le_of_lt (List.countP_pos_iff.mpr ⟨m, hm, by simp [hs]⟩)

/-! ### Structural lemmas about the record loop -/

theorem fixLoop_length (gen : Nat → String) :
    ∀ (lines : List JVal) (i : Nat) (body : List JVal),
      fixLoop gen i lines = some body → body.length = lines.length := by
  intro lines
  induction lines with
  | nil =>
      intro i body h
      rw [fixLoop_nil] at h
      cases h
      rfl
  | cons m rest ih =>
      intro i body h
      cases m with
      | obj fs =>
          rw [fixLoop_obj] at h
          by_cases hc : jstrEq (typeD fs) "file-history-snapshot" = true
          · rw [if_pos hc] at h
            obtain ⟨body0, h2, hb⟩ := Option.map_eq_some'.mp h
            subst hb
            simp [ih i body0 h2]
          · rw [if_neg hc] at h
            obtain ⟨body0, h2, hb⟩ := Option.map_eq_some'.mp h
            subst hb
            simp [ih (i + 1) body0 h2]
      | null => rw [fixLoop_null] at h; cases h
      | bool b => rw [fixLoop_bool] at h; cases h
      | num l => rw [fixLoop_num] at h; cases h
      | str s => rw [fixLoop_str] at h; cases h
      | arr xs => rw [fixLoop_arr] at h; cases h

theorem fixLoop_countSnap (gen : Nat → String) :
    ∀ (lines : List JVal) (i : Nat) (body : List JVal),
      fixLoop gen i lines = some body → countSnap body = countSnap lines := by
  intro lines
  induction lines with
  | nil =>
      intro i body h
      rw [fixLoop_nil] at h
      cases h
      rfl
  | cons m rest ih =>
      intro i body h
      cases m with
      | obj fs =>
          rw [fixLoop_obj] at h
          by_cases hc : jstrEq (typeD fs) "file-history-snapshot" = true
          · rw [if_pos hc] at h
            obtain ⟨body0, h2, hb⟩ := Option.map_eq_some'.mp h
            subst hb
            rw [countSnap_cons, countSnap_cons, ih i body0 h2]
          · rw [if_neg hc] at h
            obtain ⟨body0, h2, hb⟩ := Option.map_eq_some'.mp h
            subst hb
            simp only [Bool.not_eq_true] at hc
            have hfix : isSnapB (.obj (fixMsg (gen i) (typeD fs) fs)) = false := by
              rw [isSnapB_obj, typeD_fixMsg]
              exact hc
            have hin : isSnapB (.obj fs) = false := by
              rw [isSnapB_obj]
              exact hc
            rw [countSnap_cons, countSnap_cons, ih (i + 1) body0 h2, hfix, hin]
      | null => rw [fixLoop_null] at h; cases h
      | bool b => rw [fixLoop_bool] at h; cases h
      | num l => rw [fixLoop_num] at h; cases h
      | str s => rw [fixLoop_str] at h; cases h
      | arr xs => rw [fixLoop_arr] at h; cases h

theorem fixLoop_filter (gen : Nat → String) :
    ∀ (lines : List JVal) (i : Nat) (body : List JVal),
      fixLoop gen i lines = some body →
      body.filter nonSnapB = normalizeAll gen i (lines.filter nonSnapB) := by
  intro lines
  induction lines with
  | nil =>
      intro i body h
      rw [fixLoop_nil] at h
      cases h
      rfl
  | cons m rest ih =>
      intro i body h
      cases m with
      | obj fs =>
          rw [fixLoop_obj] at h
          by_cases hc : jstrEq (typeD fs) "file-history-snapshot" = true
          · rw [if_pos hc] at h
            obtain ⟨body0, h2, hb⟩ := Option.map_eq_some'.mp h
            subst hb
            have hns : nonSnapB (.obj fs) = false := by
              unfold nonSnapB
              rw [isSnapB_obj, hc]
              rfl
            rw [List.filter_cons, List.filter_cons, hns]
            simp only [Bool.false_eq_true, if_false]
            exact ih i body0 h2
          · rw [if_neg hc] at h
            obtain ⟨body0, h2, hb⟩ := Option.map_eq_some'.mp h
            subst hb
            simp only [Bool.not_eq_true] at hc
            have hns1 : nonSnapB (.obj (fixMsg (gen i) (typeD fs) fs)) = true := by
              unfold nonSnapB
              rw [isSnapB_obj, typeD_fixMsg, hc]
              rfl
            have hns2 : nonSnapB (.obj fs) = true := by
              unfold nonSnapB
              rw [isSnapB_obj, hc]
              rfl
            rw [List.filter_cons, List.filter_cons, hns1, hns2]
            simp only [if_true]
            rw [normalizeAll_obj, ih (i + 1) body0 h2]
      | null => rw [fixLoop_null] at h; cases h
      | bool b => rw [fixLoop_bool] at h; cases h
      | num l => rw [fixLoop_num] at h; cases h
      | str s => rw [fixLoop_str] at h; cases h
      | arr xs => rw [fixLoop_arr] at h; cases h

theorem fixLoop_mem (gen : Nat → String) :
    ∀ (lines : List JVal) (i : Nat) (body : List JVal),
      fixLoop gen i lines = some body →
      ∀ r ∈ body, isSnapB r = true ∨
        ∃ j fs, r = .obj (fixMsg (gen j) (typeD fs) fs) ∧ .obj fs ∈ lines := by
  intro lines
  induction lines with
  | nil =>
      intro i body h
      rw [fixLoop_nil] at h
      cases h
      intro r hr
      cases hr
  | cons m rest ih =>
      intro i body h
      cases m with
      | obj fs =>
          rw [fixLoop_obj] at h
          by_cases hc : jstrEq (typeD fs) "file-history-snapshot" = true
          · rw [if_pos hc] at h
            obtain ⟨body0, h2, hb⟩ := Option.map_eq_some'.mp h
            subst hb
            intro r hr
            rcases List.mem_cons.mp hr with h3 | h3
            · subst h3
              left
              rw [isSnapB_obj]
              exact hc
            · rcases ih i body0 h2 r h3 with h4 | ⟨j, fs2, h4, h5⟩
              · exact Or.inl h4
              · exact Or.inr ⟨j, fs2, h4, List.mem_cons_of_mem _ h5⟩
          · rw [if_neg hc] at h
            obtain ⟨body0, h2, hb⟩ := Option.map_eq_some'.mp h
            subst hb
            intro r hr
            rcases List.mem_cons.mp hr with h3 | h3
            · subst h3
              exact Or.inr ⟨i, fs, rfl, List.mem_cons_self _ _⟩
            · rcases ih (i + 1) body0 h2 r h3 with h4 | ⟨j, fs2, h4, h5⟩
              · exact Or.inl h4
              · exact Or.inr ⟨j, fs2, h4, List.mem_cons_of_mem _ h5⟩
      | null => rw [fixLoop_null] at h; cases h
      | bool b => rw [fixLoop_bool] at h; cases h
      | num l => rw [fixLoop_num] at h; cases h
      | str s => rw [fixLoop_str] at h; cases h
      | arr xs => rw [fixLoop_arr] at h; cases h

theorem fixLoop_idem (gen : Nat → String) :
    ∀ (lines : List JVal) (i : Nat) (body : List JVal),
      fixLoop gen i lines = some body →
      ∀ (gen2 : Nat → String) (j : Nat), fixLoop gen2 j body = some body := by
  intro lines
  induction lines with
  | nil =>
      intro i body h
      rw [fixLoop_nil] at h
      cases h
      intro gen2 j
      rfl
  | cons m rest ih =>
      intro i body h
      cases m with
      | obj fs =>
          rw [fixLoop_obj] at h
          by_cases hc : jstrEq (typeD fs) "file-history-snapshot" = true
          · rw [if_pos hc] at h
            obtain ⟨body0, h2, hb⟩ := Option.map_eq_some'.mp h
            subst hb
            intro gen2 j
            rw [fixLoop_obj, if_pos hc, ih i body0 h2 gen2 j]
            rfl
          · rw [if_neg hc] at h
            obtain ⟨body0, h2, hb⟩ := Option.map_eq_some'.mp h
            subst hb
            intro gen2 j
            simp only [Bool.not_eq_true] at hc
            have hc2 : jstrEq (typeD (fixMsg (gen i) (typeD fs) fs)) "file-history-snapshot" = false := by
              rw [typeD_fixMsg]
              exact hc
            rw [fixLoop_obj, if_neg (by simp [hc2]), ih (i + 1) body0 h2 gen2 (j + 1)]
            simp only [Option.map_some']
            rw [typeD_fixMsg, fixMsg_idem]
      | null => rw [fixLoop_null] at h; cases h
      | bool b => rw [fixLoop_bool] at h; cases h
      | num l => rw [fixLoop_num] at h; cases h
      | str s => rw [fixLoop_str] at h; cases h
      | arr xs => rw [fixLoop_arr] at h; cases h

theorem fixLoop_hasSnap (gen : Nat → String) :
    ∀ (lines : List JVal) (i : Nat) (body : List JVal),
      fixLoop gen i lines = some body → has_snapshot lines = some true →
      has_snapshot body = some true := by
  intro lines
  induction lines with
  | nil =>
      intro i body h h2
      rw [has_snapshot_nil] at h2
      simp at h2
  | cons m rest ih =>
      intro i body h h2
      cases m with
      | obj fs =>
          rw [fixLoop_obj] at h
          rw [has_snapshot_obj] at h2
          by_cases hc : snapGet fs = true
          · rw [snapGet_eq] at hc
            rw [if_pos hc] at h
            obtain ⟨body0, h3, hb⟩ := Option.map_eq_some'.mp h
            subst hb
            rw [has_snapshot_obj, if_pos (by rw [snapGet_eq]; exact hc)]
          · rw [if_neg hc] at h2
            have hc2 : jstrEq (typeD fs) "file-history-snapshot" = false := by
              rw [← snapGet_eq]
              simpa using hc
            rw [if_neg (by simp [hc2])] at h
            obtain ⟨body0, h3, hb⟩ := Option.map_eq_some'.mp h
            subst hb
            have hsg : snapGet (fixMsg (gen i) (typeD fs) fs) = false := by
              rw [snapGet_fixMsg, snapGet_eq]
              exact hc2
            rw [has_snapshot_obj, if_neg (by simp [hsg])]
            exact ih (i + 1) body0 h3 h2
      | null => rw [fixLoop_null] at h; cases h
      | bool b => rw [fixLoop_bool] at h; cases h
      | num l => rw [fixLoop_num] at h; cases h
      | str s => rw [fixLoop_str] at h; cases h
      | arr xs => rw [fixLoop_arr] at h; cases h

/-- Case analysis of a successful run of the record-list transformation:
either a snapshot was detected and the output is exactly the loop image, or
none was and the synthesized snapshot is prepended to the loop image. -/
theorem fixRecords_cases (gs : String) (gen : Nat → String)
    (lines out : List JVal) (h : fixRecords gs gen lines = some out) :
    (has_snapshot lines = some true ∧ fixLoop gen 0 lines = some out) ∨
    (∃ fs rest body, lines = .obj fs :: rest ∧ has_snapshot lines = some false ∧
      fixLoop gen 0 lines = some body ∧
      out = mkSnapshot ((lookupField fs "uuid").getD (.str gs))
        ((lookupField fs "timestamp").getD (.str "2025-10-29T10:00:00.000Z"))
        :: body) := by
  unfold fixRecords at h
  split at h
  · cases h
  · next hs => exact Or.inl ⟨hs, h⟩
  · next hs =>
      split at h
      · next fs rest =>
          obtain ⟨body, hb, hout⟩ := Option.map_eq_some'.mp h
          exact Or.inr ⟨fs, rest, body, rfl, hs, hb, hout.symm⟩
      · cases h

theorem normalizeAll_length (gen : Nat → String) :
    ∀ (l : List JVal) (i : Nat), (normalizeAll gen i l).length = l.length := by
  intro l
  induction l with
  | nil => intro i; rfl
  | cons m rest ih =>
      intro i
      cases m <;> simp [normalizeAll, ih]

/-- Every non-snapshot record of a successful output is the normalization of
some input record. -/
theorem out_nonsnap_is_image (gs : String) (gen : Nat → String)
    (lines out : List JVal) (h : fixRecords gs gen lines = some out) :
    ∀ m ∈ out, isSnapB m = false →
      ∃ j fs, m = .obj (fixMsg (gen j) (typeD fs) fs) ∧ .obj fs ∈ lines := by
  intro m hm hns
  rcases fixRecords_cases gs gen lines out h with ⟨hs, hl⟩ |
    ⟨fs, rest, body, hls, hs, hl, hout⟩
  · rcases fixLoop_mem gen lines 0 out hl m hm with hsnap | ⟨j, fs2, hm2, hmem⟩
    · rw [hns] at hsnap; cases hsnap
    · exact ⟨j, fs2, hm2, hmem⟩
  · subst hout
    rcases List.mem_cons.mp hm with h2 | h2
    · subst h2; rw [isSnapB_mkSnapshot] at hns; cases hns
    · rcases fixLoop_mem gen lines 0 body hl m h2 with hsnap | ⟨j, fs2, hm2, hmem⟩
      · rw [hns] at hsnap; cases hsnap
      · exact ⟨j, fs2, hm2, hmem⟩

/-- A record whose `type` compares equal to `s1` does not compare equal to a
different literal `s2`. -/
theorem isType_unique (m : JVal) (s1 s2 : String) (h1 : isType m s1 = true)
    (h2 : (s1 == s2) = false) : isType m s2 = false := by
  cases m with
  | obj fs =>
      have h1b : jstrEq (typeD fs) s1 = true := h1
      show jstrEq (typeD fs) s2 = false
      cases ht : typeD fs with
      | str t =>
          rw [ht] at h1b
          have h3 : t = s1 := eq_of_beq h1b
          subst h3
          exact h2
      | null => rw [ht] at h1b; simp [jstrEq] at h1b
      | bool b => rw [ht] at h1b; simp [jstrEq] at h1b
      | num l => rw [ht] at h1b; simp [jstrEq] at h1b
      | arr xs => rw [ht] at h1b; simp [jstrEq] at h1b
      | obj fs2 => rw [ht] at h1b; simp [jstrEq] at h1b
  | null => cases h1
  | bool b => cases h1
  | num l => cases h1
  | str s => cases h1
  | arr xs => cases h1

/-- A `version` value surviving normalization is the fixed literal. -/
theorem version_of_fixMsg (g : String) (t : JVal) (fs : List (String × JVal))
    (v : JVal) (hv : lookupField (fixMsg g t fs) "version" = some v) :
    v = .str "2.0.28" := by
  rw [fixMsg_version] at hv
  cases h2 : lookupField fs "version" with
  | none => rw [h2] at hv; cases hv
  | some w =>
      rw [h2] at hv
      simp only [Option.map_some'] at hv
      exact (Option.some.inj hv).symm

/-! ### Claim C1 -/

/-- C1 as stated is false: an input already holding two
`file-history-snapshot` records is passed through unchanged, so the output
holds two snapshot records, not exactly one. -/
theorem C1_counterexample :
    fixRecords "u0" gen0 [snapRec, snapRec] = some [snapRec, snapRec] ∧
    countSnap [snapRec, snapRec] ≠ 1 := by
  exact ⟨rfl, by decide⟩

/-- C1 (amended): for every non-empty input list on which the fix succeeds,
the output contains at least one snapshot record; it contains exactly one
whenever the input contained at most one; and when the input contained
none, the first output record is the synthesized snapshot. -/
theorem C1_snapshot_count (gs : String) (gen : Nat → String)
    (lines out : List JVal) (h1 : lines ≠ [])
    (h2 : fixRecords gs gen lines = some out) :
    1 ≤ countSnap out ∧
    (countSnap lines ≤ 1 → countSnap out = 1) ∧
    (countSnap lines = 0 →
      ∃ first rest2, out = first :: rest2 ∧ isSnapB first = true) := by
  rcases fixRecords_cases gs gen lines out h2 with ⟨hs, hl⟩ |
    ⟨fs, rest, body, hls, hs, hl, hout⟩
  · have hc : countSnap out = countSnap lines := fixLoop_countSnap gen lines 0 out hl
    have hp : 1 ≤ countSnap lines := countSnap_pos_of_true lines hs
    exact ⟨by omega, by omega, by omega⟩
  · have hc : countSnap body = countSnap lines := fixLoop_countSnap gen lines 0 body hl
    have hz : countSnap lines = 0 := countSnap_zero_of_false lines hs
    subst hout
    have hcount : countSnap
        (mkSnapshot ((lookupField fs "uuid").getD (.str gs))
          ((lookupField fs "timestamp").getD (.str "2025-10-29T10:00:00.000Z"))
          :: body) = 1 := by
      rw [countSnap_cons, isSnapB_mkSnapshot, hc, hz]
      rfl
    refine ⟨by omega, fun _ => hcount, fun _ => ⟨_, body, rfl, isSnapB_mkSnapshot _ _⟩⟩

/-- Witness for C1 at the single-user-record input. -/
theorem C1_snapshot_count_witness :
    1 ≤ countSnap [mkSnapshot (.str "abc") (.str "2025-01-01T00:00:00.000Z"),
        .obj [("type", .str "user"), ("uuid", .str "abc"),
              ("timestamp", .str "2025-01-01T00:00:00.000Z"),
              ("gitBranch", .str "main"), ("thinkingMetadata", thinkingDefault)]] ∧
    (countSnap [userRec] ≤ 1 →
      countSnap [mkSnapshot (.str "abc") (.str "2025-01-01T00:00:00.000Z"),
        .obj [("type", .str "user"), ("uuid", .str "abc"),
              ("timestamp", .str "2025-01-01T00:00:00.000Z"),
              ("gitBranch", .str "main"), ("thinkingMetadata", thinkingDefault)]] = 1) ∧
    (countSnap [userRec] = 0 →
      ∃ first rest2,
        [mkSnapshot (.str "abc") (.str "2025-01-01T00:00:00.000Z"),
         .obj [("type", .str "user"), ("uuid", .str "abc"),
               ("timestamp", .str "2025-01-01T00:00:00.000Z"),
               ("gitBranch", .str "main"), ("thinkingMetadata", thinkingDefault)]] =
          first :: rest2 ∧ isSnapB first = true) :=
  C1_snapshot_count "u0" gen0 [userRec] _ (List.cons_ne_nil _ _) rfl

/-! ### Claim C2 -/

/-- C2: when the non-empty input holds no snapshot record, the first output
record is the synthesized snapshot; its `messageId` and nested
`snapshot.messageId` both equal the first record's `uuid` (or the generated
identifier `gs` when `uuid` is absent), `snapshot.timestamp` equals the
first record's `timestamp` (or the fixed default literal),
`snapshot.trackedFileBackups` is the empty mapping, and `isSnapshotUpdate`
is false. -/
theorem C2_synthesized_snapshot (gs : String) (gen : Nat → String)
    (fs0 : List (String × JVal)) (rest out : List JVal)
    (hns : ∀ m ∈ (JVal.obj fs0 :: rest), isSnapB m = false)
    (hfix : fixRecords gs gen (JVal.obj fs0 :: rest) = some out) :
    ∃ body mid ts,
      mid = (lookupField fs0 "uuid").getD (.str gs) ∧
      ts = (lookupField fs0 "timestamp").getD (.str "2025-10-29T10:00:00.000Z") ∧
      out = mkSnapshot mid ts :: body ∧
      getF (mkSnapshot mid ts) "type" = some (.str "file-history-snapshot") ∧
      getF (mkSnapshot mid ts) "messageId" = some mid ∧
      (∃ sfs, getF (mkSnapshot mid ts) "snapshot" = some (.obj sfs) ∧
        lookupField sfs "messageId" = some mid ∧
        lookupField sfs "trackedFileBackups" = some (.obj []) ∧
        lookupField sfs "timestamp" = some ts) ∧
      getF (mkSnapshot mid ts) "isSnapshotUpdate" = some (.bool false) := by
  rcases fixRecords_cases gs gen _ out hfix with ⟨hs, hl⟩ |
    ⟨fs, rest2, body, hls, hs, hl, hout⟩
  · obtain ⟨m, hm, hsm⟩ := has_snapshot_true_mem _ hs
    rw [hns m hm] at hsm
    cases hsm
  · injection hls with hfs hrest
    injection hfs with hfs
    subst hfs
    subst hrest
    exact ⟨body, _, _, rfl, rfl, hout, rfl, rfl,
      ⟨_, rfl, rfl, rfl, rfl⟩, rfl⟩

/-- Witness for C2 at the single-user-record input. -/
theorem C2_synthesized_snapshot_witness :
    ∃ body mid ts,
      mid = (lookupField [("type", JVal.str "user"), ("uuid", JVal.str "abc"),
          ("timestamp", JVal.str "2025-01-01T00:00:00.000Z")] "uuid").getD (.str "u0") ∧
      ts = (lookupField [("type", JVal.str "user"), ("uuid", JVal.str "abc"),
          ("timestamp", JVal.str "2025-01-01T00:00:00.000Z")] "timestamp").getD
          (.str "2025-10-29T10:00:00.000Z") ∧
      (fixRecords "u0" gen0 [userRec]).getD [] = mkSnapshot mid ts :: body ∧
      getF (mkSnapshot mid ts) "type" = some (.str "file-history-snapshot") ∧
      getF (mkSnapshot mid ts) "messageId" = some mid ∧
      (∃ sfs, getF (mkSnapshot mid ts) "snapshot" = some (.obj sfs) ∧
        lookupField sfs "messageId" = some mid ∧
        lookupField sfs "trackedFileBackups" = some (.obj []) ∧
        lookupField sfs "timestamp" = some ts) ∧
      getF (mkSnapshot mid ts) "isSnapshotUpdate" = some (.bool false) := by
  have h := C2_synthesized_snapshot "u0" gen0
    [("type", JVal.str "user"), ("uuid", JVal.str "abc"),
     ("timestamp", JVal.str "2025-01-01T00:00:00.000Z")] []
    ((fixRecords "u0" gen0 [userRec]).getD []) (by decide) rfl
  exact h

/-! ### Claim C3 -/

/-- C3: the non-snapshot records of the output are exactly the non-snapshot
input records, in the same order, each one carrying its normalization — no
record is dropped or reordered. -/
theorem C3_order_preserved (gs : String) (gen : Nat → String)
    (lines out : List JVal) (h : fixRecords gs gen lines = some out) :
    out.filter nonSnapB = normalizeAll gen 0 (lines.filter nonSnapB) ∧
    (out.filter nonSnapB).length = (lines.filter nonSnapB).length := by
  have hmain : out.filter nonSnapB = normalizeAll gen 0 (lines.filter nonSnapB) := by
    rcases fixRecords_cases gs gen lines out h with ⟨hs, hl⟩ |
      ⟨fs, rest, body, hls, hs, hl, hout⟩
    · exact fixLoop_filter gen lines 0 out hl
    · subst hout
      rw [List.filter_cons]
      have hns : nonSnapB (mkSnapshot ((lookupField fs "uuid").getD (.str gs))
          ((lookupField fs "timestamp").getD
            (.str "2025-10-29T10:00:00.000Z"))) = false := by
        unfold nonSnapB
        rw [isSnapB_mkSnapshot]
        rfl
      rw [hns]
      simp only [Bool.false_eq_true, if_false]
      exact fixLoop_filter gen lines 0 body hl
  exact ⟨hmain, by rw [hmain, normalizeAll_length]⟩

/-- Witness for C3 at the two-record scenario input. -/
theorem C3_order_preserved_witness :
    ((fixRecords "u0" gen0 [userRec, assistantRec]).getD []).filter nonSnapB =
      normalizeAll gen0 0 ([userRec, assistantRec].filter nonSnapB) ∧
    (((fixRecords "u0" gen0 [userRec, assistantRec]).getD []).filter nonSnapB).length =
      ([userRec, assistantRec].filter nonSnapB).length :=
  C3_order_preserved "u0" gen0 [userRec, assistantRec] _ rfl

/-! ### Claim C4 -/

/-- C4: when some input record is already a snapshot, nothing is
synthesized: the output is exactly the loop image of the input and has the
same length. -/
theorem C4_no_synthesis (gs : String) (gen : Nat → String)
    (lines out : List JVal) (h1 : ∃ m ∈ lines, isSnapB m = true)
    (h2 : fixRecords gs gen lines = some out) :
    out.length = lines.length ∧ fixLoop gen 0 lines = some out := by
  rcases fixRecords_cases gs gen lines out h2 with ⟨hs, hl⟩ |
    ⟨fs, rest, body, hls, hs, hl, hout⟩
  · exact ⟨fixLoop_length gen lines 0 out hl, hl⟩
  · obtain ⟨m, hm, hsm⟩ := h1
    rw [(has_snapshot_false _ hs m hm).1] at hsm
    cases hsm

/-- Witness for C4 at an input already holding a snapshot record. -/
theorem C4_no_synthesis_witness :
    ((fixRecords "u0" gen0 [snapRec, userRec]).getD []).length =
      ([snapRec, userRec] : List JVal).length ∧
    fixLoop gen0 0 [snapRec, userRec] =
      some ((fixRecords "u0" gen0 [snapRec, userRec]).getD []) :=
  C4_no_synthesis "u0" gen0 [snapRec, userRec] _
    ⟨snapRec, List.mem_cons_self _ _, by decide⟩ rfl

/-! ### Claim C5 -/

/-- C5 as stated is false: a snapshot-typed input record is passed through
untouched (lines 66-68 run before the version overwrite), so its stale
`version` survives in the output. -/
theorem C5_counterexample :
    fixRecords "u0" gen0 [snapVerRec] = some [snapVerRec] ∧
    getF snapVerRec "version" = some (.str "1.0.0") ∧
    getF snapVerRec "version" ≠ some (.str "2.0.28") := by
  refine ⟨rfl, rfl, ?_⟩
  intro hcontra
  rw [show getF snapVerRec "version" = some (.str "1.0.0") from rfl] at hcontra
  injection hcontra with hcontra
  injection hcontra with hcontra
  exact absurd hcontra (by decide)

/-- C5 (amended): every output record that is not snapshot-typed and whose
`version` field is present carries the literal `"2.0.28"`. -/
theorem C5_version_overwritten (gs : String) (gen : Nat → String)
    (lines out : List JVal) (h : fixRecords gs gen lines = some out) :
    ∀ m ∈ out, isSnapB m = false →
      ∀ v, getF m "version" = some v → v = .str "2.0.28" := by
  intro m hm hns v hv
  obtain ⟨j, fs, hm2, _⟩ := out_nonsnap_is_image gs gen lines out h m hm hns
  subst hm2
  exact version_of_fixMsg _ _ _ _ hv

/-- Witness for C5 at the two-record scenario input: the assistant record
of the output is a non-snapshot record with a present version field, and
the theorem applied there shows its value is the fixed literal. -/
theorem C5_version_overwritten_witness :
    fixRecords "u0" gen0 [userRec, assistantRec] = some fixedScenario ∧
    assistantOutRec ∈ fixedScenario ∧
    isSnapB assistantOutRec = false ∧
    getF assistantOutRec "version" = some (.str "2.0.28") ∧
    JVal.str "2.0.28" = JVal.str "2.0.28" := by
  refine ⟨rfl, by simp [fixedScenario], by decide, rfl, ?_⟩
  exact C5_version_overwritten "u0" gen0 [userRec, assistantRec] fixedScenario rfl
    assistantOutRec (by simp [fixedScenario]) (by decide) (.str "2.0.28") rfl

/-! ### Claim C6 -/

/-- C6: every output `assistant` record has a `requestId`; normalization
keeps a present `requestId` untouched and, when it is absent on an
assistant record, installs the string `"req_" ++ g` built from the freshly
generated token `g`. -/
theorem C6_requestId (gs : String) (gen : Nat → String)
    (lines out : List JVal) (h : fixRecords gs gen lines = some out) :
    (∀ m ∈ out, isType m "assistant" = true → (getF m "requestId").isSome = true) ∧
    (∀ m ∈ out, isType m "assistant" = true →
      ∃ j fs, .obj fs ∈ lines ∧ m = .obj (fixMsg (gen j) (typeD fs) fs)) ∧
    (∀ (g : String) (fs : List (String × JVal)) (v : JVal),
      lookupField fs "requestId" = some v →
      lookupField (fixMsg g (typeD fs) fs) "requestId" = some v) ∧
    (∀ (g : String) (fs : List (String × JVal)),
      jstrEq (typeD fs) "assistant" = true →
      lookupField fs "requestId" = none →
      lookupField (fixMsg g (typeD fs) fs) "requestId" =
        some (.str ("req_" ++ g))) := by
  refine ⟨?_, ?_, ?_, ?_⟩
  · intro m hm ht
    have hns : isSnapB m = false :=
      isType_unique m "assistant" "file-history-snapshot" ht (by decide)
    obtain ⟨j, fs, hm2, _⟩ := out_nonsnap_is_image gs gen lines out h m hm hns
    subst hm2
    rw [isType_fixMsg] at ht
    have ht2 : jstrEq (typeD fs) "assistant" = true := ht
    show (lookupField (fixMsg (gen j) (typeD fs) fs) "requestId").isSome = true
    rw [fixMsg_requestId, if_pos ht2]
    rfl
  · intro m hm ht
    have hns : isSnapB m = false :=
      isType_unique m "assistant" "file-history-snapshot" ht (by decide)
    obtain ⟨j, fs, hm2, hmem⟩ := out_nonsnap_is_image gs gen lines out h m hm hns
    exact ⟨j, fs, hmem, hm2⟩
  · intro g fs v hv
    rw [fixMsg_requestId, hv]
    split <;> rfl
  · intro g fs ht hn
    rw [fixMsg_requestId, if_pos ht, hn]
    rfl

/-- Witness for C6 at the two-record scenario input. -/
theorem C6_requestId_witness :
    (∀ m ∈ (fixRecords "u0" gen0 [userRec, assistantRec]).getD [],
      isType m "assistant" = true → (getF m "requestId").isSome = true) ∧
    (∀ m ∈ (fixRecords "u0" gen0 [userRec, assistantRec]).getD [],
      isType m "assistant" = true →
      ∃ j fs, .obj fs ∈ [userRec, assistantRec] ∧
        m = .obj (fixMsg (gen0 j) (typeD fs) fs)) ∧
    (∀ (g : String) (fs : List (String × JVal)) (v : JVal),
      lookupField fs "requestId" = some v →
      lookupField (fixMsg g (typeD fs) fs) "requestId" = some v) ∧
    (∀ (g : String) (fs : List (String × JVal)),
      jstrEq (typeD fs) "assistant" = true →
      lookupField fs "requestId" = none →
      lookupField (fixMsg g (typeD fs) fs) "requestId" =
        some (.str ("req_" ++ g))) :=
  C6_requestId "u0" gen0 [userRec, assistantRec] _ rfl

/-! ### Claim C7 -/

/-- C7: every output `user` or `assistant` record has a `gitBranch`;
normalization keeps a present `gitBranch` untouched and installs the
literal `"main"` when it is absent on such records. -/
theorem C7_gitBranch (gs : String) (gen : Nat → String)
    (lines out : List JVal) (h : fixRecords gs gen lines = some out) :
    (∀ m ∈ out, (isType m "user" || isType m "assistant") = true →
      (getF m "gitBranch").isSome = true) ∧
    (∀ m ∈ out, (isType m "user" || isType m "assistant") = true →
      ∃ j fs, .obj fs ∈ lines ∧ m = .obj (fixMsg (gen j) (typeD fs) fs)) ∧
    (∀ (g : String) (fs : List (String × JVal)) (v : JVal),
      lookupField fs "gitBranch" = some v →
      lookupField (fixMsg g (typeD fs) fs) "gitBranch" = some v) ∧
    (∀ (g : String) (fs : List (String × JVal)),
      (jstrEq (typeD fs) "user" || jstrEq (typeD fs) "assistant") = true →
      lookupField fs "gitBranch" = none →
      lookupField (fixMsg g (typeD fs) fs) "gitBranch" = some (.str "main")) := by
  refine ⟨?_, ?_, ?_, ?_⟩
  · intro m hm ht
    have hns : isSnapB m = false := by
      rcases Bool.or_eq_true_iff.mp ht with h2 | h2
      · exact isType_unique m "user" "file-history-snapshot" h2 (by decide)
      · exact isType_unique m "assistant" "file-history-snapshot" h2 (by decide)
    obtain ⟨j, fs, hm2, _⟩ := out_nonsnap_is_image gs gen lines out h m hm hns
    subst hm2
    rw [isType_fixMsg, isType_fixMsg] at ht
    have ht2 : (jstrEq (typeD fs) "user" || jstrEq (typeD fs) "assistant") = true := ht
    show (lookupField (fixMsg (gen j) (typeD fs) fs) "gitBranch").isSome = true
    rw [fixMsg_gitBranch, if_pos ht2]
    rfl
  · intro m hm ht
    have hns : isSnapB m = false := by
      rcases Bool.or_eq_true_iff.mp ht with h2 | h2
      · exact isType_unique m "user" "file-history-snapshot" h2 (by decide)
      · exact isType_unique m "assistant" "file-history-snapshot" h2 (by decide)
    obtain ⟨j, fs, hm2, hmem⟩ := out_nonsnap_is_image gs gen lines out h m hm hns
    exact ⟨j, fs, hmem, hm2⟩
  · intro g fs v hv
    rw [fixMsg_gitBranch, hv]
    split <;> rfl
  · intro g fs ht hn
    rw [fixMsg_gitBranch, if_pos ht, hn]
    rfl

/-- Witness for C7 at the two-record scenario input. -/
theorem C7_gitBranch_witness :
    (∀ m ∈ (fixRecords "u0" gen0 [userRec, assistantRec]).getD [],
      (isType m "user" || isType m "assistant") = true →
      (getF m "gitBranch").isSome = true) ∧
    (∀ m ∈ (fixRecords "u0" gen0 [userRec, assistantRec]).getD [],
      (isType m "user" || isType m "assistant") = true →
      ∃ j fs, .obj fs ∈ [userRec, assistantRec] ∧
        m = .obj (fixMsg (gen0 j) (typeD fs) fs)) ∧
    (∀ (g : String) (fs : List (String × JVal)) (v : JVal),
      lookupField fs "gitBranch" = some v →
      lookupField (fixMsg g (typeD fs) fs) "gitBranch" = some v) ∧
    (∀ (g : String) (fs : List (String × JVal)),
      (jstrEq (typeD fs) "user" || jstrEq (typeD fs) "assistant") = true →
      lookupField fs "gitBranch" = none →
      lookupField (fixMsg g (typeD fs) fs) "gitBranch" = some (.str "main")) :=
  C7_gitBranch "u0" gen0 [userRec, assistantRec] _ rfl

/-! ### Claim C9 -/

theorem has_snapshot_mkSnapshot (mid ts : JVal) (rest : List JVal) :
    has_snapshot (mkSnapshot mid ts :: rest) = some true := rfl

theorem fixLoop_mkSnapshot (gen2 : Nat → String) (j : Nat) (mid ts : JVal)
    (rest : List JVal) :
    fixLoop gen2 j (mkSnapshot mid ts :: rest) =
      (fixLoop gen2 j rest).map (fun body => mkSnapshot mid ts :: body) := rfl

/-- C9: the in-memory transformation is idempotent — running the fix on its
own output (under any identifier supply) returns the output unchanged. -/
theorem C9_idempotent (gs gs2 : String) (gen gen2 : Nat → String)
    (lines out : List JVal) (h1 : lines ≠ [])
    (h2 : fixRecords gs gen lines = some out) :
    fixRecords gs2 gen2 out = some out := by
  rcases fixRecords_cases gs gen lines out h2 with ⟨hs, hl⟩ |
    ⟨fs, rest, body, hls, hs, hl, hout⟩
  · have hsb : has_snapshot out = some true := fixLoop_hasSnap gen lines 0 out hl hs
    have hloop : fixLoop gen2 0 out = some out := fixLoop_idem gen lines 0 out hl gen2 0
    unfold fixRecords
    rw [hsb]
    exact hloop
  · subst hout
    have hloop : fixLoop gen2 0 body = some body := fixLoop_idem gen lines 0 body hl gen2 0
    unfold fixRecords
    rw [has_snapshot_mkSnapshot, fixLoop_mkSnapshot, hloop]
    rfl

/-- Witness for C9 at the single-user-record input. -/
theorem C9_idempotent_witness :
    fixRecords "x1" (fun _ => "beef") ((fixRecords "u0" gen0 [userRec]).getD []) =
      some ((fixRecords "u0" gen0 [userRec]).getD []) :=
  C9_idempotent "u0" "x1" gen0 (fun _ => "beef") [userRec] _
    (List.cons_ne_nil _ _) rfl

/-! ### Claim C8 -/

/-- C8: when the path names no file, or when every line of the named file is
blank or unparsable, the operation reports failure and the filesystem is
returned exactly as it was — no backup is created and no write happens. -/
theorem C8_failure_no_mutation (gs : String) (gen : Nat → String) (fs : FS)
    (path : String)
    (h : FS.lookup fs path = none ∨
      ∃ c, FS.lookup fs path = some c ∧ ∀ l ∈ c, l = Line.blank ∨ l = Line.bad) :
    fix_session gs gen fs path = .ok (false, fs) := by
  unfold fix_session
  rcases h with h | ⟨c, hc, hall⟩
  · rw [h]
  · have hp : parseLines c = [] := by
      unfold parseLines
      rw [List.filterMap_eq_nil_iff]
      intro l hl
      rcases hall l hl with h2 | h2 <;> subst h2 <;> rfl
    split
    · rfl
    · next content heq =>
        rw [hc] at heq
        have hcc : c = content := Option.some.inj heq
        subst hcc
        split
        · rfl
        · next first rest heq2 => rw [hp] at heq2; cases heq2

/-- Witness for C8 on a file holding one blank and one unparsable line. -/
theorem C8_failure_no_mutation_witness :
    fix_session "u0" gen0 [("s.jsonl", [Line.blank, Line.bad])] "s.jsonl" =
      .ok (false, [("s.jsonl", [Line.blank, Line.bad])]) :=
  C8_failure_no_mutation "u0" gen0 _ _
    (Or.inr ⟨[Line.blank, Line.bad], rfl, by
      intro l hl
      rcases List.mem_cons.mp hl with h | h
      · exact Or.inl h
      · rcases List.mem_cons.mp h with h2 | h2
        · exact Or.inr h2
        · exact absurd h2 (List.not_mem_nil l)⟩)

/-! ### Claim C10 -/

/-- C10: a line parsing to a non-object JSON value is collected into the
record list like any other parsed line (neither warned about nor dropped),
and on an input containing such a line the run reaches the unhandled-error
branch — field access on the non-object raises — before any filesystem
mutation, leaving the filesystem in its original state. -/
theorem C10_nonobject_crash :
    (∀ (content : List Line) (v : JVal), Line.ok v ∈ content →
      v ∈ parseLines content) ∧
    parseLines [Line.ok userRec, Line.ok (.num "5")] = [userRec, .num "5"] ∧
    fix_session "u0" gen0 [("s.jsonl", [Line.ok userRec, Line.ok (.num "5")])]
        "s.jsonl" =
      .error [("s.jsonl", [Line.ok userRec, Line.ok (.num "5")])] := by
  refine ⟨?_, rfl, rfl⟩
  intro content v hv
  unfold parseLines
  exact List.mem_filterMap.mpr ⟨Line.ok v, hv, rfl⟩

/-- Witness applying C10: the non-object value is in the collected list and
the run on the file containing it ends in the error branch with the
filesystem untouched. -/
theorem C10_nonobject_crash_witness :
    (JVal.num "5") ∈ parseLines [Line.ok userRec, Line.ok (.num "5")] ∧
    fix_session "u0" gen0 [("s.jsonl", [Line.ok userRec, Line.ok (.num "5")])]
        "s.jsonl" =
      .error [("s.jsonl", [Line.ok userRec, Line.ok (.num "5")])] :=
  ⟨C10_nonobject_crash.1 [Line.ok userRec, Line.ok (.num "5")] (.num "5")
      (List.mem_cons_of_mem _ (List.mem_cons_self _ _)),
   C10_nonobject_crash.2.2⟩
